import Mathlib

/-!
Verification development for the voice-agent call-graph discovery repository.

Shallow embedding of:
* `src/graph/scenario_tracker.py` (`ScenarioTracker.track_scenario`,
  `ScenarioTracker.export_graph` for the JSON view),
* `src/api/hamming_client.py` (`HammingClient.download_recording`),
* `src/voice_agent_discovery.py` (`VoiceAgentDiscovery.__init__`,
  `VoiceAgentDiscovery.discover_scenarios`,
  `VoiceAgentDiscovery._is_scenario_discovered`).

Python dictionaries that hold question/answer pairs are modelled as
insertion-ordered association lists (Python dicts preserve insertion order,
and the dicts produced by the analyzer have no duplicate keys).
External collaborators (hamming API, transcriber, OpenAI analyzer) are
modelled as an oracle environment indexed by the iteration counter.
-/

/-- One question/answer dictionary, as produced by the analyzer:
a Python `dict` in insertion order (in practice a single-entry dict). -/
abbrev QADict := List (String × String)

/-- A scenario: an ordered list of question/answer dicts
(`List[dict]` in the Python source). -/
abbrev Scenario := List QADict

/-- An edge of the multigraph: `(from, to, answer)` in insertion order.
`networkx.MultiDiGraph.add_edge` always appends a new parallel edge. -/
abbrev GEdge := String × String × String

/-- State of `ScenarioTracker.nx_graph`: node list (insertion order,
no duplicates, matching `add_node` semantics) and edge list (insertion
order, parallel edges kept, matching `MultiDiGraph` semantics). -/
structure Graph where
  nodes : List String
  edges : List GEdge
deriving Repr, DecidableEq

/-- `ScenarioTracker.__init__`: empty multigraph plus the "Call Start" node. -/
def initGraph : Graph := { nodes := ["Call Start"], edges := [] }

/-- `nx_graph.add_node`: a no-op when the node is already present. -/
def addNode (g : Graph) (n : String) : Graph :=
  if n ∈ g.nodes then g else { g with nodes := g.nodes ++ [n] }

/-- `nx_graph.add_edge u v answer`: adds missing endpoints (u first, then v,
as networkx does), then appends a new parallel edge. -/
def addEdge (g : Graph) (u v a : String) : Graph :=
  let g1 := addNode (addNode g u) v
  { g1 with edges := g1.edges ++ [(u, v, a)] }

/-- The inner `for question, answer in qa_dict.items()` loop of
`track_scenario`: threads `previous_question` through one dict. -/
def trackDict (g : Graph) (prev : String × String) : QADict → Graph × (String × String)
  | [] => (g, prev)
  | (q, a) :: rest =>
      let g1 := addNode g q
      let g2 := if prev.1 ≠ "Call Start" then addEdge g1 prev.1 q prev.2 else g1
      trackDict g2 (q, a) rest

/-- The outer `for qa_dict in path` loop of `track_scenario`. -/
def trackLoop (g : Graph) (prev : String × String) : Scenario → Graph × (String × String)
  | [] => (g, prev)
  | d :: rest =>
      let (g1, prev1) := trackDict g prev d
      trackLoop g1 prev1 rest

/-- `ScenarioTracker.track_scenario(path, outcome)`.
Mirrors the source line by line: the start edge is added only when
`path and path[0]` is truthy (nonempty path whose first dict is nonempty);
the loop threads `previous_question`, initially `("Call Start", "begin call")`;
finally the outcome node and the closing edge are added unconditionally
(a Python tuple is always truthy, so `if previous_question:` always holds).
The `is_outcome=True` node attribute is not modelled (the JSON export
does not read node attributes). -/
def trackScenario (g : Graph) (path : Scenario) (outcome : String) : Graph :=
  let prev0 : String × String := ("Call Start", "begin call")
  let g1 :=
    match path with
    | [] => g
    | d :: _ =>
        match d with
        | [] => g
        | (q, _) :: _ => addEdge (addNode g q) "Call Start" q "begin call"
  let (g2, prev) := trackLoop g1 prev0 path
  let outcomeNode := "Outcome: " ++ outcome
  addEdge (addNode g2 outcomeNode) prev.1 outcomeNode prev.2

/-- Edge list with per-`(from, to)` keys, as in the `'json'` branch of
`export_graph` (`key` is the parallel-edge counter that
`MultiDiGraph.add_edge` assigns).  The real export iterates edges in
adjacency order; only the set of entries is relied on here, the spec
guarantees no ordering of the export. -/
def withKeys (seen : List (String × String)) : List GEdge → List (String × String × String × Nat)
  | [] => []
  | (u, v, a) :: rest => (u, v, a, seen.count (u, v)) :: withKeys (seen ++ [(u, v)]) rest

/-- The `edges` array of `export_graph('json')`, as
`(from, to, answer, key)` tuples. -/
def exportEdges (g : Graph) : List (String × String × String × Nat) :=
  withKeys [] g.edges

/-- The `(from, to, answer)` triples of the JSON export, dropping the key. -/
def exportTriples (g : Graph) : List GEdge :=
  (exportEdges g).map (fun e => (e.1, e.2.1, e.2.2.1))

/-- The `nodes` array of `export_graph('json')`. -/
def exportNodes (g : Graph) : List String := g.nodes

-- Pure description of the edges appended by one `track_scenario` call:
-- it depends only on the path and the outcome (edge insertion in the
-- source is unconditional; only node insertion is guarded).

/-- Edges contributed by the inner dict loop, plus the final
`previous_question` value. -/
def dictEdges (prev : String × String) : QADict → List GEdge × (String × String)
  | [] => ([], prev)
  | (q, a) :: rest =>
      let e := if prev.1 ≠ "Call Start" then [(prev.1, q, prev.2)] else []
      let (es, p1) := dictEdges (q, a) rest
      (e ++ es, p1)

/-- Edges contributed by the outer path loop, plus the final
`previous_question` value. -/
def pathEdges (prev : String × String) : Scenario → List GEdge × (String × String)
  | [] => ([], prev)
  | d :: rest =>
      let (es, p1) := dictEdges prev d
      let (es2, p2) := pathEdges p1 rest
      (es ++ es2, p2)

/-- The start edge added by `track_scenario` (only for a path whose first
dict is nonempty). -/
def startEdge : Scenario → List GEdge
  | [] => []
  | [] :: _ => []
  | ((q, _) :: _) :: _ => [("Call Start", q, "begin call")]

/-- All edges one `track_scenario path outcome` call appends, in order. -/
def trackAdded (path : Scenario) (outcome : String) : List GEdge :=
  let (es, prev) := pathEdges ("Call Start", "begin call") path
  startEdge path ++ es ++ [(prev.1, "Outcome: " ++ outcome, prev.2)]

@[simp] theorem addNode_edges (g : Graph) (n : String) : (addNode g n).edges = g.edges := by
  unfold addNode; split <;> rfl

@[simp] theorem addEdge_edges (g : Graph) (u v a : String) :
    (addEdge g u v a).edges = g.edges ++ [(u, v, a)] := by
  unfold addEdge; simp

theorem trackDict_edges (d : QADict) :
    ∀ (g : Graph) (prev : String × String),
      (trackDict g prev d).1.edges = g.edges ++ (dictEdges prev d).1 ∧
      (trackDict g prev d).2 = (dictEdges prev d).2 := by
  induction d with
  | nil => intro g prev; simp [trackDict, dictEdges]
  | cons p rest ih =>
      intro g prev
      obtain ⟨q, a⟩ := p
      simp only [trackDict, dictEdges]
      obtain ⟨ih1, ih2⟩ := ih (if prev.1 ≠ "Call Start" then addEdge (addNode g q) prev.1 q prev.2 else addNode g q) (q, a)
      constructor
      · rw [ih1]
        by_cases h : prev.1 = "Call Start" <;> simp [h]
      · rw [ih2]

theorem trackLoop_edges (path : Scenario) :
    ∀ (g : Graph) (prev : String × String),
      (trackLoop g prev path).1.edges = g.edges ++ (pathEdges prev path).1 ∧
      (trackLoop g prev path).2 = (pathEdges prev path).2 := by
  induction path with
  | nil => intro g prev; simp [trackLoop, pathEdges]
  | cons d rest ih =>
      intro g prev
      simp only [trackLoop, pathEdges]
      obtain ⟨h1, h2⟩ := trackDict_edges d g prev
      obtain ⟨ih1, ih2⟩ := ih (trackDict g prev d).1 (trackDict g prev d).2
      constructor
      · rw [ih1, h1, h2, List.append_assoc]
      · rw [ih2, h2]

/-- The edges appended by `track_scenario` depend only on the path and the
outcome, never on the existing graph. -/
theorem trackScenario_edges (g : Graph) (path : Scenario) (outcome : String) :
    (trackScenario g path outcome).edges = g.edges ++ trackAdded path outcome := by
  unfold trackScenario trackAdded
  obtain ⟨h1, h2⟩ := trackLoop_edges path
    (match path with
      | [] => g
      | d :: _ =>
          match d with
          | [] => g
          | (q, _) :: _ => addEdge (addNode g q) "Call Start" q "begin call")
    ("Call Start", "begin call")
  simp only [addEdge_edges, addNode_edges, h1, h2]
  match path with
  | [] => simp [startEdge]
  | [] :: rest => simp [startEdge]
  | ((q, a) :: d) :: rest => simp [startEdge, addEdge_edges, addNode_edges, List.append_assoc]

/-- Projecting the keyed JSON export back to `(from, to, answer)` triples
recovers the edge list. -/
theorem exportTriples_eq_edges (g : Graph) : exportTriples g = g.edges := by
  unfold exportTriples exportEdges
  suffices h : ∀ (l : List GEdge) (seen : List (String × String)),
      (withKeys seen l).map (fun e => (e.1, e.2.1, e.2.2.1)) = l by
    exact h g.edges []
  intro l
  induction l with
  | nil => intro seen; rfl
  | cons e rest ih =>
      intro seen
      obtain ⟨u, v, a⟩ := e
      simp [withKeys, ih]

/-- Consecutive-pair edges of a question/answer chain: one edge
`question_{i-1} -> question_i` labeled `answer_{i-1}` per adjacent pair. -/
def chainEdges : List (String × String) → List GEdge
  | [] => []
  | [_] => []
  | (q, a) :: (q', a') :: rest => (q, q', a) :: chainEdges ((q', a') :: rest)

/-- The last question/answer pair of a chain, seeded with a default. -/
def lastPair (p : String × String) : List (String × String) → String × String
  | [] => p
  | q :: rest => lastPair q rest

theorem pathEdges_singletons (pairs : List (String × String)) :
    ∀ prev : String × String, prev.1 ≠ "Call Start" →
      (∀ p ∈ pairs, p.1 ≠ "Call Start") →
      pathEdges prev (pairs.map (fun p => [p])) =
        (chainEdges (prev :: pairs), lastPair prev pairs) := by
  induction pairs with
  | nil => intro prev _ _; simp [pathEdges, chainEdges, lastPair]
  | cons p rest ih =>
      intro prev hprev hp
      obtain ⟨q, a⟩ := p
      obtain ⟨pq, pa⟩ := prev
      have hq : q ≠ "Call Start" := hp (q, a) (List.mem_cons_self _ _)
      simp only [List.map_cons, pathEdges, dictEdges]
      rw [ih (q, a) hq (fun x hx => hp x (List.mem_cons_of_mem _ hx))]
      simp [chainEdges, lastPair, hprev]

/-- The general shape of one `track_scenario` call on a well-formed path of
single-pair dicts: a start edge, the consecutive-pair chain, and a closing
edge into the namespaced outcome node.  Well-formed means the path is
nonempty and no question collides with the reserved "Call Start" node. -/
theorem trackScenario_singletons (g : Graph) (q1 a1 : String)
    (rest : List (String × String)) (outcome : String)
    (hq : ∀ p ∈ (q1, a1) :: rest, p.1 ≠ "Call Start") :
    (trackScenario g (((q1, a1) :: rest).map (fun p => [p])) outcome).edges =
      g.edges ++
        ("Call Start", q1, "begin call") ::
          (chainEdges ((q1, a1) :: rest) ++
            [((lastPair (q1, a1) rest).1, "Outcome: " ++ outcome,
              (lastPair (q1, a1) rest).2)]) := by
  rw [trackScenario_edges]
  unfold trackAdded
  have h1 : q1 ≠ "Call Start" := hq (q1, a1) (List.mem_cons_self _ _)
  have hstep : pathEdges ("Call Start", "begin call") (((q1, a1) :: rest).map (fun p => [p])) =
      ((chainEdges ((q1, a1) :: rest), lastPair (q1, a1) rest) :
        List GEdge × (String × String)) := by
    simp only [List.map_cons, pathEdges, dictEdges]
    rw [pathEdges_singletons rest (q1, a1) h1 (fun x hx => hq x (List.mem_cons_of_mem _ hx))]
    simp
  rw [hstep]
  simp [startEdge]

/-- C1 (amended): for every well-formed path of single-pair dicts
`[(q1,a1),...,(qn,an)]` (nonempty, questions distinct from the reserved
"Call Start" node) and every outcome, `track_scenario` adds exactly the
edges `Call Start -> q1` labeled with the sentinel marker `"begin call"`,
`q_{i-1} -> q_i` labeled `a_{i-1}` for `2 <= i <= n`, and
`q_n -> "Outcome: " ++ outcome` labeled `a_n`.  (The claim stated the
sentinel label as `"begin"`; the source uses `"begin call"`, see the
counterexample.) -/
theorem c1_recordScenario_edge_shape (g : Graph) (q1 a1 : String)
    (rest : List (String × String)) (outcome : String)
    (hq : ∀ p ∈ (q1, a1) :: rest, p.1 ≠ "Call Start") :
    (trackScenario g (((q1, a1) :: rest).map (fun p => [p])) outcome).edges =
      g.edges ++
        ("Call Start", q1, "begin call") ::
          (chainEdges ((q1, a1) :: rest) ++
            [((lastPair (q1, a1) rest).1, "Outcome: " ++ outcome,
              (lastPair (q1, a1) rest).2)]) :=
  trackScenario_singletons g q1 a1 rest outcome hq

/-- C1 witness: the concrete scenario from the spec, evaluated. -/
theorem c1_recordScenario_edge_shape_witness :
    (trackScenario initGraph
        [[("Are you an existing customer?", "Yes")], [("Is this an emergency?", "No")]]
        "agent_callback").edges =
      [("Call Start", "Are you an existing customer?", "begin call"),
       ("Are you an existing customer?", "Is this an emergency?", "Yes"),
       ("Is this an emergency?", "Outcome: agent_callback", "No")] := by
  have h := c1_recordScenario_edge_shape initGraph "Are you an existing customer?" "Yes"
      [("Is this an emergency?", "No")] "agent_callback" (by decide)
  simpa [initGraph, chainEdges, lastPair] using h

/-- C1 counterexample: the claim as stated says the start edge is labeled
`"begin"`; on the concrete scenario the JSON export has no such triple
(the label in the source is `"begin call"`). -/
theorem c1_counterexample :
    ("Call Start", "Are you an existing customer?", "begin") ∉
      exportTriples (trackScenario initGraph
        [[("Are you an existing customer?", "Yes")], [("Is this an emergency?", "No")]]
        "agent_callback") ∧
    ("Call Start", "Are you an existing customer?", "begin call") ∈
      exportTriples (trackScenario initGraph
        [[("Are you an existing customer?", "Yes")], [("Is this an emergency?", "No")]]
        "agent_callback") := by
  constructor <;> decide

/-- C7 (amended): `track_scenario` performs no input validation.  An empty
path is accepted without error (there is no `ValidationError` anywhere in
the source); the call silently appends the edge
`Call Start -> "Outcome: " ++ outcome` labeled `"begin call"`. -/
theorem c7_empty_path_appends_edge (g : Graph) (outcome : String) :
    (trackScenario g [] outcome).edges =
      g.edges ++ [("Call Start", "Outcome: " ++ outcome, "begin call")] := by
  rw [trackScenario_edges]; rfl

/-- C7 counterexample: the claim says an empty path is rejected with a
`ValidationError` and leaves the graph unchanged; in the source the call
returns normally and the edge list changes. -/
theorem c7_counterexample :
    (trackScenario initGraph [] "agent_callback").edges ≠ initGraph.edges := by
  decide

/-- C8 (confirmed): recording the same `(path, outcome)` twice and exporting
the JSON view yields the same set of distinct `(from, to, answer)` triples
as recording it once, even though the underlying multigraph stores the
parallel edges. -/
theorem c8_idempotent_export (g : Graph) (path : Scenario) (outcome : String) :
    (exportTriples (trackScenario (trackScenario g path outcome) path outcome)).toFinset =
      (exportTriples (trackScenario g path outcome)).toFinset := by
  simp [exportTriples_eq_edges, trackScenario_edges, List.toFinset_append,
    Finset.union_assoc]

-- `HammingClient.download_recording` (src/api/hamming_client.py).
-- The HTTP layer is an oracle mapping the attempt index to a response;
-- the function returns the trace of externally visible actions (GET
-- requests and backoff sleeps) together with the result.

/-- Outcome of one `requests.get` on the media endpoint. -/
inductive HttpResponse where
  | notFound
  | ok (content : List Nat)
  | other (status : Nat)
deriving Repr, DecidableEq

/-- The distinct failure exits of `download_recording` (the source raises
bare `Exception`s with distinct messages; the spec names the first two
`RecordingUnavailable` and `InvalidArtifact`). -/
inductive FetchError where
  | recordingUnavailable
  | invalidWav
  | httpError (status : Nat)
  | loopExhausted
deriving Repr, DecidableEq

/-- Externally visible actions of `download_recording`. -/
inductive FetchEvent where
  | fetch
  | sleep (seconds : Nat)
deriving Repr, DecidableEq

/-- The WAV container signature `b'RIFF'` as byte values. -/
def riffMagic : List Nat := [82, 73, 70, 70]

/-- `response.content[:12].startswith(b'RIFF')`: taking 12 bytes first and
then comparing the 4-byte signature is the same as comparing the first 4
bytes directly. -/
def startsWithRiff (content : List Nat) : Bool :=
  decide ((content.take 12).take 4 = riffMagic)

/-- The `for attempt in range(max_retries)` loop of `download_recording`.
`attempt` is the current loop index and `remaining` the number of loop
iterations left (`attempt + remaining = max_retries` at every call from
`downloadRecording`); recursion is structural on `remaining`.
Branches, in source order:
* 404: if `attempt < max_retries - 1`, sleep `10 * (attempt + 1)` seconds
  and retry, else raise (spec name: `RecordingUnavailable`);
* 200: validate the signature; mismatch raises immediately (spec name:
  `InvalidArtifact`), otherwise the payload is saved and returned;
* otherwise `raise_for_status` raises for statuses >= 400 and falls
  through to the next attempt for others.
Exhausting the loop raises "Failed to download recording after N attempts". -/
def downloadAux (responses : Nat → HttpResponse) (maxRetries : Nat) :
    Nat → Nat → List FetchEvent × Except FetchError (List Nat)
  | _, 0 => ([], .error .loopExhausted)
  | attempt, remaining + 1 =>
      match responses attempt with
      | .notFound =>
          if attempt < maxRetries - 1 then
            let waitTime := 10 * (attempt + 1)
            let (tr, res) := downloadAux responses maxRetries (attempt + 1) remaining
            (.fetch :: .sleep waitTime :: tr, res)
          else
            ([.fetch], .error .recordingUnavailable)
      | .ok content =>
          if startsWithRiff content then
            ([.fetch], .ok content)
          else
            ([.fetch], .error .invalidWav)
      | .other status =>
          if 400 ≤ status then
            ([.fetch], .error (.httpError status))
          else
            let (tr, res) := downloadAux responses maxRetries (attempt + 1) remaining
            (.fetch :: tr, res)

/-- `HammingClient.download_recording(call_id, max_retries)`: runs the
retry loop from attempt 0. -/
def downloadRecording (responses : Nat → HttpResponse) (maxRetries : Nat) :
    List FetchEvent × Except FetchError (List Nat) :=
  downloadAux responses maxRetries 0 maxRetries

/-- Number of GET requests in a trace. -/
def countFetch (tr : List FetchEvent) : Nat :=
  (tr.filter (fun e => match e with | .fetch => true | _ => false)).length

/-- The backoff sleeps of a trace, in order. -/
def sleepsOf : List FetchEvent → List Nat
  | [] => []
  | .sleep s :: rest => s :: sleepsOf rest
  | .fetch :: rest => sleepsOf rest

/-- Expected trace when every attempt reports 404: a fetch and a linear
backoff sleep per non-final attempt, a bare fetch on the final one. -/
def notFoundTrace : Nat → Nat → List FetchEvent
  | 0, _ => []
  | 1, _ => [.fetch]
  | remaining + 2, attempt =>
      .fetch :: .sleep (10 * (attempt + 1)) :: notFoundTrace (remaining + 1) (attempt + 1)

theorem downloadAux_notFound (responses : Nat → HttpResponse)
    (h404 : ∀ i, responses i = .notFound) (maxRetries : Nat) :
    ∀ remaining attempt, attempt + remaining = maxRetries → 1 ≤ remaining →
      downloadAux responses maxRetries attempt remaining =
        (notFoundTrace remaining attempt, .error .recordingUnavailable) := by
  intro remaining
  induction remaining with
  | zero => intro attempt _ h1; omega
  | succ r ih =>
      intro attempt hsum _
      match r, ih with
      | 0, _ =>
          have hlast : ¬ attempt < maxRetries - 1 := by omega
          simp [downloadAux, h404 attempt, hlast, notFoundTrace]
      | r' + 1, ih =>
          have hlt : attempt < maxRetries - 1 := by omega
          have hrec := ih (attempt + 1) (by omega) (by omega)
          have step : downloadAux responses maxRetries attempt (r' + 1 + 1) =
              (.fetch :: .sleep (10 * (attempt + 1)) ::
                  (downloadAux responses maxRetries (attempt + 1) (r' + 1)).1,
                (downloadAux responses maxRetries (attempt + 1) (r' + 1)).2) := by
            simp [downloadAux, h404, hlt]
          rw [step, hrec]
          simp [notFoundTrace]

theorem countFetch_notFoundTrace :
    ∀ remaining attempt, countFetch (notFoundTrace remaining attempt) = remaining := by
  intro remaining
  induction remaining with
  | zero => intro attempt; rfl
  | succ r ih =>
      intro attempt
      match r, ih with
      | 0, _ => rfl
      | r' + 1, ih =>
          have h := ih (attempt + 1)
          simp [notFoundTrace, countFetch, List.filter] at h ⊢
          omega

theorem sleepsOf_notFoundTrace :
    ∀ remaining attempt, sleepsOf (notFoundTrace remaining attempt) =
      (List.range (remaining - 1)).map (fun i => 10 * (attempt + i + 1)) := by
  intro remaining
  induction remaining with
  | zero => intro attempt; rfl
  | succ r ih =>
      intro attempt
      match r, ih with
      | 0, _ => rfl
      | r' + 1, ih =>
          have h := ih (attempt + 1)
          simp only [notFoundTrace, sleepsOf, h, Nat.add_sub_cancel, List.range_succ_eq_map,
            List.map_cons, List.map_map]
          refine List.cons_eq_cons.mpr ⟨by omega, ?_⟩
          apply List.map_congr_left
          intro i _
          simp only [Function.comp_apply]
          omega

theorem downloadAux_fetch_bound (responses : Nat → HttpResponse) (maxRetries : Nat) :
    ∀ remaining attempt,
      countFetch (downloadAux responses maxRetries attempt remaining).1 ≤ remaining := by
  intro remaining
  induction remaining with
  | zero => intro attempt; simp [downloadAux, countFetch]
  | succ r ih =>
      intro attempt
      unfold downloadAux
      match responses attempt with
      | .notFound =>
          by_cases h : attempt < maxRetries - 1
          · have := ih (attempt + 1)
            simp only [h, if_true]
            simp [countFetch, List.filter] at this ⊢
            omega
          · simp [h, countFetch, List.filter]
      | .ok content =>
          by_cases h : startsWithRiff content = true <;>
            simp [h, countFetch, List.filter]
      | .other status =>
          by_cases h : 400 ≤ status
          · simp [h, countFetch, List.filter]
          · have := ih (attempt + 1)
            simp only [h, if_false]
            simp [countFetch, List.filter] at this ⊢
            omega

/-- C5 (confirmed): `download_recording` performs at most `max_retries`
GET attempts for any remote behavior; when every attempt reports 404 it
sleeps `10 * attemptNumber` seconds between attempts (linear backoff
10, 20, ...), performs exactly `max_retries` attempts, and fails with the
retry-exhaustion error (spec name `RecordingUnavailable`) without ever
issuing an extra request. -/
theorem c5_download_retry_exhaustion (responses : Nat → HttpResponse) (maxRetries : Nat) :
    countFetch (downloadRecording responses maxRetries).1 ≤ maxRetries ∧
    ((∀ i, responses i = .notFound) → 1 ≤ maxRetries →
      (downloadRecording responses maxRetries).2 = .error .recordingUnavailable ∧
      countFetch (downloadRecording responses maxRetries).1 = maxRetries ∧
      sleepsOf (downloadRecording responses maxRetries).1 =
        (List.range (maxRetries - 1)).map (fun i => 10 * (i + 1))) := by
  constructor
  · exact downloadAux_fetch_bound responses maxRetries maxRetries 0
  · intro h404 h1
    have h := downloadAux_notFound responses h404 maxRetries maxRetries 0 (by omega) h1
    unfold downloadRecording
    rw [h]
    refine ⟨rfl, countFetch_notFoundTrace maxRetries 0, ?_⟩
    rw [sleepsOf_notFoundTrace maxRetries 0]
    apply List.map_congr_left
    intro i _
    omega

/-- C5 witness: with `max_retries = 3` and an always-404 remote, the call
makes exactly three requests, sleeps 10 then 20 seconds, and fails with
the retry-exhaustion error. -/
theorem c5_download_retry_exhaustion_witness :
    (downloadRecording (fun _ => .notFound) 3).2 = .error .recordingUnavailable ∧
    countFetch (downloadRecording (fun _ => .notFound) 3).1 = 3 ∧
    sleepsOf (downloadRecording (fun _ => .notFound) 3).1 = [10, 20] := by
  have h := (c5_download_retry_exhaustion (fun _ => .notFound) 3).2 (fun _ => rfl) (by decide)
  exact ⟨h.1, h.2.1, h.2.2.trans (by decide)⟩

/-- C6 (confirmed): a 200 response whose payload does not start with the
`RIFF` signature makes `download_recording` fail immediately with the
invalid-artifact error (spec name `InvalidArtifact`): the trace of that
call is a single GET with no backoff sleep and no further attempts. -/
theorem c6_invalid_artifact_immediate (responses : Nat → HttpResponse)
    (maxRetries attempt remaining : Nat) (content : List Nat)
    (hresp : responses attempt = .ok content)
    (hriff : startsWithRiff content = false) :
    (1 ≤ remaining →
      downloadAux responses maxRetries attempt remaining =
        ([.fetch], .error .invalidWav)) ∧
    (attempt = 0 → 1 ≤ maxRetries →
      downloadRecording responses maxRetries = ([.fetch], .error .invalidWav)) := by
  constructor
  · intro hrem
    match remaining, hrem with
    | r + 1, _ => simp [downloadAux, hresp, hriff]
  · intro h0 h1
    subst h0
    unfold downloadRecording
    match maxRetries, h1 with
    | r + 1, _ => simp [downloadAux, hresp, hriff]

/-- C6 witness: a 200 response with a non-RIFF payload on the first
attempt, `max_retries = 3`. -/
theorem c6_invalid_artifact_immediate_witness :
    downloadRecording (fun _ => .ok [0, 1, 2]) 3 = ([.fetch], .error .invalidWav) :=
  (c6_invalid_artifact_immediate (fun _ => .ok [0, 1, 2]) 3 0 3 [0, 1, 2] rfl
    (by decide)).2 rfl (by decide)

-- `VoiceAgentDiscovery` (src/voice_agent_discovery.py).
-- The four collaborators (hamming client, transcriber, analyzer, prompt
-- renderer) are an oracle environment indexed by the iteration counter;
-- the loop body is deterministic given the oracle.

/-- Keys of a question/answer dict, in insertion order. -/
def dictKeys (d : QADict) : List String := d.map Prod.fst

/-- `d[k]` for a dict modelled as an association list (dicts produced by
JSON parsing have no duplicate keys, so the first hit is the value). -/
def dictLookup (d : QADict) (k : String) : Option String :=
  (d.find? (fun p => p.1 == k)).map Prod.snd

/-- `disc_dict.keys() != cand_dict.keys()` negated: Python dict key views
compare as sets, irrespective of insertion order. -/
def keysSetEq (d c : QADict) : Bool :=
  (dictKeys d).all (fun k => decide (k ∈ dictKeys c)) &&
  (dictKeys c).all (fun k => decide (k ∈ dictKeys d))

/-- The per-dict comparison inside `_is_scenario_discovered`: equal key
sets, then equal values for every key of the first dict. -/
def dictsMatch (d c : QADict) : Bool :=
  keysSetEq d c && (dictKeys d).all (fun k => dictLookup d k == dictLookup c k)

/-- Structural comparison of two scenarios: same length and matching dicts
position by position (the zip mirrors the source's `zip(discovered,
candidate_scenario)` after the length check). -/
def scenarioMatch (d c : Scenario) : Bool :=
  decide (d.length = c.length) && (d.zip c).all (fun p => dictsMatch p.1 p.2)

/-- `VoiceAgentDiscovery._is_scenario_discovered`: candidate already in
the discovered list, up to structural equality.  The early
`if not discovered_scenarios: return False` is the `any` of an empty list. -/
def isScenarioDiscovered (ds : List Scenario) (cand : Scenario) : Bool :=
  ds.any (fun d => scenarioMatch d cand)

/-- `set.add`: the existing-questions/outcomes sets, modelled as
insertion-ordered duplicate-free lists (iteration order of a Python set
only influences oracle prompt strings). -/
def insertNew (l : List String) (s : String) : List String :=
  if s ∈ l then l else l ++ [s]

/-- The `for qa_dict in extracted_qa_pairs: for question in qa_dict.keys()`
update of `existing_questions`. -/
def updateQuestions (qs : List String) (qaPairs : List QADict) : List String :=
  qaPairs.foldl (fun acc d => (dictKeys d).foldl insertNew acc) qs

/-- Result of `ConversationAnalyzer.generate_scenarios`: a variant list on
success; `jsonErr` when `json.loads` raises `JSONDecodeError` (the source
catches it and returns `[]`); `fail` for any other exception, which
propagates out of the method. -/
inductive GenResult where
  | ok (variants : List Scenario)
  | jsonErr
  | fail
deriving Repr, DecidableEq

/-- Oracle for the external collaborators, indexed by the iteration
counter (the value of `scenarios_explored` when the iteration starts):
* `initialPrompt`: the `generate_prompt` call before the loop;
* `renderPrompt`: the `generate_prompt` call for an enqueued variant;
* `startCall`: whether `hamming_client.start_call` returns a dict with an
  `id` (false models an exception, e.g. a network error or missing key);
* `download` / `transcribe`: whether `download_recording` / `transcribe`
  succeed (both failures are caught by the same `try` block);
* `analyze`: `ConversationAnalyzer.analyze` result, `none` models an
  exception (e.g. unparseable model output);
* `gen`: `ConversationAnalyzer.generate_scenarios`, see `GenResult`. -/
structure Env where
  initialPrompt : String
  renderPrompt : Nat → Scenario → String
  startCall : Nat → Bool
  download : Nat → Bool
  transcribe : Nat → Bool
  analyze : Nat → Option (List QADict × String)
  gen : Nat → GenResult

/-- The constructor's configuration dict: the four keys read by
`VoiceAgentDiscovery.__init__`.  They only configure the external
collaborators, which are modelled by `Env`. -/
structure Config where
  assemblyApiKey : String
  openaiApiKey : String
  hammingApiToken : String
  hammingBaseUrl : String
deriving Repr, DecidableEq

/-- Mutable state of one `discover_scenarios` run, plus two ghost fields
(`executed`, `startCalls`) recording the dequeued paths and the number of
`start_call` invocations (one per loop iteration, so always equal to
`scenarios_explored` in reachable states). -/
structure DState where
  frontier : List (String × Scenario)
  discovered : List Scenario
  explored : Nat
  maxScenarios : Nat
  graph : Graph
  questions : List String
  outcomes : List String
  executed : List Scenario
  startCalls : Nat
deriving Repr

/-- How a run ends: the loop terminating (frontier empty or cap reached),
the caught download/transcription failure (`return` in the `except`
block), a propagating exception, or — a modelling artifact — running out
of recursion fuel (proved unreachable from the fuel chosen by `runLoop`). -/
inductive RunExit where
  | normal
  | abortedReturn
  | abortedRaise
  | fuelOut
deriving Repr, DecidableEq

/-- The `for scenario in new_scenarios` enqueue loop: per variant, stop if
the cap is reached, drop structurally known variants, otherwise append to
`discovered_scenarios` and push `(prompt, scenario)` onto the frontier. -/
def enqueueVariants (prompt : Scenario → String) (maxScenarios explored : Nat) :
    List Scenario → List (String × Scenario) → List Scenario →
      List Scenario × List (String × Scenario)
  | discovered, frontier, [] => (discovered, frontier)
  | discovered, frontier, v :: rest =>
      if maxScenarios ≤ explored then (discovered, frontier)
      else if isScenarioDiscovered discovered v then
        enqueueVariants prompt maxScenarios explored discovered frontier rest
      else
        enqueueVariants prompt maxScenarios explored (discovered ++ [v])
          (frontier ++ [(prompt v, v)]) rest

/-- The successful tail of one loop iteration: `track_scenario`, the
existing-questions/outcomes updates, then the enqueue loop (the source
calls `generate_scenarios` before `track_scenario`, so this runs only
when the variant stage did not raise). -/
def postState (env : Env) (k : Nat) (st1 : DState) (qaPairs : List QADict)
    (outcome : String) (variants : List Scenario) : DState :=
  let pr := enqueueVariants (env.renderPrompt k) st1.maxScenarios st1.explored
      st1.discovered st1.frontier variants
  { st1 with
      graph := trackScenario st1.graph qaPairs outcome,
      questions := updateQuestions st1.questions qaPairs,
      outcomes := insertNew st1.outcomes outcome,
      discovered := pr.1,
      frontier := pr.2 }

/-- The `while scenarios_to_explore and scenarios_explored <
self.max_scenarios` loop, with explicit fuel (each iteration increments
`scenarios_explored`, so `runLoop` always supplies enough).  Stage order
matches the source: pop, increment, `start_call`, the
download/transcribe `try` block (failure prints and `return`s),
`analyze`, `generate_scenarios` (a `JSONDecodeError` yields `[]`, any
other exception propagates), `track_scenario`, set updates, enqueue.
`mkStep` is the state mutation at the top of each iteration: pop the
head, increment the counters, log the dequeued path. -/
def mkStep (st : DState) (path : Scenario) (rest : List (String × Scenario)) : DState :=
  { st with
      frontier := rest,
      explored := st.explored + 1,
      executed := st.executed ++ [path],
      startCalls := st.startCalls + 1 }

def loopFuel (env : Env) : Nat → DState → RunExit × DState
  | 0, st => (.fuelOut, st)
  | fuel + 1, st =>
      match st.frontier with
      | [] => (.normal, st)
      | (_, path) :: rest =>
          if st.explored < st.maxScenarios then
            let k := st.explored
            let st1 := mkStep st path rest
            if env.startCall k then
              if env.download k && env.transcribe k then
                match env.analyze k with
                | some (qaPairs, outcome) =>
                    match env.gen k with
                    | .fail => (.abortedRaise, st1)
                    | .jsonErr => loopFuel env fuel (postState env k st1 qaPairs outcome [])
                    | .ok vs => loopFuel env fuel (postState env k st1 qaPairs outcome vs)
                | none => (.abortedRaise, st1)
              else (.abortedReturn, st1)
            else (.abortedRaise, st1)
          else (.normal, st)

/-- Run the discovery loop from a state, with fuel that always suffices
(`loopFuel_no_fuelOut` below). -/
def runLoop (env : Env) (st : DState) : RunExit × DState :=
  loopFuel env (st.maxScenarios - st.explored + 1) st

/-- `VoiceAgentDiscovery.__init__` plus the pre-loop seeding of
`discover_scenarios`: the frontier holds the rendered initial prompt with
the empty path, and `max_scenarios` is the constant 10 — the
configuration dict carries only collaborator credentials. -/
def initState (env : Env) (_config : Config) : DState :=
  { frontier := [(env.initialPrompt, [])],
    discovered := [],
    explored := 0,
    maxScenarios := 10,
    graph := initGraph,
    questions := [],
    outcomes := [],
    executed := [],
    startCalls := 0 }

/-- `VoiceAgentDiscovery.discover_scenarios`. -/
def discoverScenarios (env : Env) (c : Config) : RunExit × DState :=
  runLoop env (initState env c)

/-- Paths that have been enqueued as variants: everything that ever sat in
the frontier except the initial seed (position 0 of the dequeue order). -/
def variantLog (st : DState) : List Scenario :=
  (st.executed ++ st.frontier.map Prod.snd).drop 1

/-- Run invariant: `discovered_scenarios` is exactly the enqueued-variant
log, it is pairwise structurally distinct, and the counters agree with
the ghost execution log. -/
def RunInv (st : DState) : Prop :=
  st.discovered = variantLog st ∧
  List.Pairwise (fun a b => scenarioMatch a b = false) st.discovered ∧
  st.explored = st.executed.length ∧
  st.startCalls = st.executed.length

@[simp] theorem mkStep_frontier (st : DState) (path : Scenario) (rest : List (String × Scenario)) :
    (mkStep st path rest).frontier = rest := rfl

@[simp] theorem mkStep_explored (st : DState) (path : Scenario) (rest : List (String × Scenario)) :
    (mkStep st path rest).explored = st.explored + 1 := rfl

@[simp] theorem mkStep_startCalls (st : DState) (path : Scenario) (rest : List (String × Scenario)) :
    (mkStep st path rest).startCalls = st.startCalls + 1 := rfl

@[simp] theorem mkStep_executed (st : DState) (path : Scenario) (rest : List (String × Scenario)) :
    (mkStep st path rest).executed = st.executed ++ [path] := rfl

@[simp] theorem mkStep_maxScenarios (st : DState) (path : Scenario) (rest : List (String × Scenario)) :
    (mkStep st path rest).maxScenarios = st.maxScenarios := rfl

@[simp] theorem mkStep_discovered (st : DState) (path : Scenario) (rest : List (String × Scenario)) :
    (mkStep st path rest).discovered = st.discovered := rfl

@[simp] theorem postState_explored (env : Env) (k : Nat) (st1 : DState) (qaPairs : List QADict)
    (outcome : String) (vs : List Scenario) :
    (postState env k st1 qaPairs outcome vs).explored = st1.explored := rfl

@[simp] theorem postState_startCalls (env : Env) (k : Nat) (st1 : DState) (qaPairs : List QADict)
    (outcome : String) (vs : List Scenario) :
    (postState env k st1 qaPairs outcome vs).startCalls = st1.startCalls := rfl

@[simp] theorem postState_executed (env : Env) (k : Nat) (st1 : DState) (qaPairs : List QADict)
    (outcome : String) (vs : List Scenario) :
    (postState env k st1 qaPairs outcome vs).executed = st1.executed := rfl

@[simp] theorem postState_maxScenarios (env : Env) (k : Nat) (st1 : DState) (qaPairs : List QADict)
    (outcome : String) (vs : List Scenario) :
    (postState env k st1 qaPairs outcome vs).maxScenarios = st1.maxScenarios := rfl

theorem postState_discovered (env : Env) (k : Nat) (st1 : DState) (qaPairs : List QADict)
    (outcome : String) (vs : List Scenario) :
    (postState env k st1 qaPairs outcome vs).discovered =
      (enqueueVariants (env.renderPrompt k) st1.maxScenarios st1.explored
        st1.discovered st1.frontier vs).1 := rfl

theorem postState_frontier (env : Env) (k : Nat) (st1 : DState) (qaPairs : List QADict)
    (outcome : String) (vs : List Scenario) :
    (postState env k st1 qaPairs outcome vs).frontier =
      (enqueueVariants (env.renderPrompt k) st1.maxScenarios st1.explored
        st1.discovered st1.frontier vs).2 := rfl

theorem isScenarioDiscovered_eq_false_iff (ds : List Scenario) (v : Scenario) :
    isScenarioDiscovered ds v = false ↔ ∀ d ∈ ds, scenarioMatch d v = false := by
  simp [isScenarioDiscovered]

theorem enqueueVariants_spec (pr : Scenario → String) (mx ex : Nat) :
    ∀ (vs disc : List Scenario) (front : List (String × Scenario)),
      ∃ added : List Scenario,
        (enqueueVariants pr mx ex disc front vs).1 = disc ++ added ∧
        (enqueueVariants pr mx ex disc front vs).2 =
          front ++ added.map (fun v => (pr v, v)) ∧
        (List.Pairwise (fun a b => scenarioMatch a b = false) disc →
          List.Pairwise (fun a b => scenarioMatch a b = false) (disc ++ added)) := by
  intro vs
  induction vs with
  | nil =>
      intro disc front
      exact ⟨[], by simp [enqueueVariants], by simp [enqueueVariants], fun h => by simpa⟩
  | cons v rest ih =>
      intro disc front
      by_cases hmx : mx ≤ ex
      · exact ⟨[], by simp [enqueueVariants, hmx], by simp [enqueueVariants, hmx],
          fun h => by simpa⟩
      · by_cases hd : isScenarioDiscovered disc v = true
        · obtain ⟨added, h1, h2, h3⟩ := ih disc front
          refine ⟨added, ?_, ?_, h3⟩
          · rw [show enqueueVariants pr mx ex disc front (v :: rest) =
                enqueueVariants pr mx ex disc front rest from by
                  simp [enqueueVariants, hmx, hd]]
            exact h1
          · rw [show enqueueVariants pr mx ex disc front (v :: rest) =
                enqueueVariants pr mx ex disc front rest from by
                  simp [enqueueVariants, hmx, hd]]
            exact h2
        · have hf : isScenarioDiscovered disc v = false := by
            simpa using hd
          have hstep : enqueueVariants pr mx ex disc front (v :: rest) =
              enqueueVariants pr mx ex (disc ++ [v]) (front ++ [(pr v, v)]) rest := by
            simp [enqueueVariants, hmx, hf]
          obtain ⟨added, h1, h2, h3⟩ := ih (disc ++ [v]) (front ++ [(pr v, v)])
          refine ⟨v :: added, ?_, ?_, ?_⟩
          · rw [hstep, h1]; simp
          · rw [hstep, h2]; simp
          · intro hp
            have hv : ∀ x ∈ disc, scenarioMatch x v = false :=
              (isScenarioDiscovered_eq_false_iff disc v).mp hf
            have hpv : List.Pairwise (fun a b => scenarioMatch a b = false) (disc ++ [v]) := by
              rw [List.pairwise_append]
              refine ⟨hp, List.pairwise_singleton _ _, ?_⟩
              intro a ha b hb
              simp only [List.mem_singleton] at hb
              subst hb
              exact hv a ha
            have hres := h3 hpv
            simpa using hres

/-- Exhaustive description of one unfolding of the discovery loop: the
iteration either terminates the loop without touching the state, aborts
after the per-iteration bookkeeping, or proceeds to the next state via
`postState` with the oracle outputs of that iteration. -/
theorem loopFuel_succ_cases (env : Env) (fuel : Nat) (st : DState) :
    (loopFuel env (fuel + 1) st = (.normal, st) ∧
      (st.frontier = [] ∨ ¬ st.explored < st.maxScenarios)) ∨
    (∃ p path rest, st.frontier = (p, path) :: rest ∧ st.explored < st.maxScenarios ∧
      ∃ e, (e = RunExit.abortedRaise ∨ e = RunExit.abortedReturn) ∧
        loopFuel env (fuel + 1) st = (e, mkStep st path rest)) ∨
    (∃ p path rest, st.frontier = (p, path) :: rest ∧ st.explored < st.maxScenarios ∧
      env.startCall st.explored = true ∧
      (env.download st.explored && env.transcribe st.explored) = true ∧
      ∃ qaPairs outcome vs, env.analyze st.explored = some (qaPairs, outcome) ∧
        (env.gen st.explored = .ok vs ∨ (env.gen st.explored = .jsonErr ∧ vs = [])) ∧
        loopFuel env (fuel + 1) st =
          loopFuel env fuel (postState env st.explored (mkStep st path rest) qaPairs outcome vs)) := by
  cases hfr : st.frontier with
  | nil => exact Or.inl ⟨by simp [loopFuel, hfr], Or.inl rfl⟩
  | cons head rest =>
      obtain ⟨p, path⟩ := head
      by_cases hexp : st.explored < st.maxScenarios
      · cases hsc : env.startCall st.explored with
        | false =>
            refine Or.inr (Or.inl ⟨p, path, rest, rfl, hexp, .abortedRaise, Or.inl rfl, ?_⟩)
            simp [loopFuel, hfr, hexp, hsc]
        | true =>
            cases hdt : env.download st.explored && env.transcribe st.explored with
            | false =>
                refine Or.inr (Or.inl ⟨p, path, rest, rfl, hexp, .abortedReturn, Or.inr rfl, ?_⟩)
                simp [loopFuel, hfr, hexp, hsc, hdt]
            | true =>
                cases han : env.analyze st.explored with
                | none =>
                    refine Or.inr (Or.inl ⟨p, path, rest, rfl, hexp, .abortedRaise, Or.inl rfl, ?_⟩)
                    simp [loopFuel, hfr, hexp, hsc, hdt, han]
                | some qaoc =>
                    obtain ⟨qaPairs, outcome⟩ := qaoc
                    cases hgen : env.gen st.explored with
                    | fail =>
                        refine Or.inr (Or.inl ⟨p, path, rest, rfl, hexp, .abortedRaise, Or.inl rfl, ?_⟩)
                        simp [loopFuel, hfr, hexp, hsc, hdt, han, hgen]
                    | jsonErr =>
                        refine Or.inr (Or.inr ⟨p, path, rest, rfl, hexp, rfl, rfl,
                          qaPairs, outcome, [], rfl, Or.inr ⟨rfl, rfl⟩, ?_⟩)
                        simp [loopFuel, hfr, hexp, hsc, hdt, han, hgen]
                    | ok vs =>
                        refine Or.inr (Or.inr ⟨p, path, rest, rfl, hexp, rfl, rfl,
                          qaPairs, outcome, vs, rfl, Or.inl rfl, ?_⟩)
                        simp [loopFuel, hfr, hexp, hsc, hdt, han, hgen]
      · exact Or.inl ⟨by simp [loopFuel, hfr, hexp], Or.inr hexp⟩

theorem loopFuel_max (env : Env) :
    ∀ (fuel : Nat) (st : DState), (loopFuel env fuel st).2.maxScenarios = st.maxScenarios := by
  intro fuel
  induction fuel with
  | zero => intro st; rfl
  | succ fuel ih =>
      intro st
      rcases loopFuel_succ_cases env fuel st with ⟨heq, _⟩ |
        ⟨p, path, rest, hfr, hexp, e, he, heq⟩ |
        ⟨p, path, rest, hfr, hexp, hsc, hdt, qa, oc, vs, han, hg, heq⟩
      · rw [heq]
      · rw [heq]; simp
      · rw [heq, ih]; simp

theorem loopFuel_startCalls_bound (env : Env) :
    ∀ (fuel : Nat) (st : DState),
      (loopFuel env fuel st).2.startCalls ≤ st.startCalls + (st.maxScenarios - st.explored) := by
  intro fuel
  induction fuel with
  | zero => intro st; simp [loopFuel]
  | succ fuel ih =>
      intro st
      rcases loopFuel_succ_cases env fuel st with ⟨heq, _⟩ |
        ⟨p, path, rest, hfr, hexp, e, he, heq⟩ |
        ⟨p, path, rest, hfr, hexp, hsc, hdt, qa, oc, vs, han, hg, heq⟩
      · rw [heq]; exact Nat.le_add_right _ _
      · rw [heq]; simp; omega
      · rw [heq]
        have h := ih (postState env st.explored (mkStep st path rest) qa oc vs)
        simp only [postState_startCalls, postState_maxScenarios, postState_explored,
          mkStep_startCalls, mkStep_maxScenarios, mkStep_explored] at h
        omega

theorem loopFuel_no_fuelOut (env : Env) :
    ∀ (fuel : Nat) (st : DState), st.maxScenarios - st.explored < fuel →
      (loopFuel env fuel st).1 ≠ RunExit.fuelOut := by
  intro fuel
  induction fuel with
  | zero => intro st h; omega
  | succ fuel ih =>
      intro st hlt
      rcases loopFuel_succ_cases env fuel st with ⟨heq, _⟩ |
        ⟨p, path, rest, hfr, hexp, e, he, heq⟩ |
        ⟨p, path, rest, hfr, hexp, hsc, hdt, qa, oc, vs, han, hg, heq⟩
      · rw [heq]; simp
      · rw [heq]; rcases he with he | he <;> simp [he]
      · rw [heq]
        apply ih
        simp only [postState_maxScenarios, postState_explored,
          mkStep_maxScenarios, mkStep_explored]
        omega

theorem loopFuel_normal_exit (env : Env) :
    ∀ (fuel : Nat) (st : DState), st.explored ≤ st.maxScenarios →
      (loopFuel env fuel st).1 = RunExit.normal →
      ((loopFuel env fuel st).2.frontier = [] ∨
        (loopFuel env fuel st).2.explored = st.maxScenarios) := by
  intro fuel
  induction fuel with
  | zero => intro st _ h; exact absurd h (by simp [loopFuel])
  | succ fuel ih =>
      intro st hle hn
      rcases loopFuel_succ_cases env fuel st with ⟨heq, hcond⟩ |
        ⟨p, path, rest, hfr, hexp, e, he, heq⟩ |
        ⟨p, path, rest, hfr, hexp, hsc, hdt, qa, oc, vs, han, hg, heq⟩
      · rw [heq]
        rcases hcond with h | h
        · exact Or.inl h
        · right
          simp only []
          omega
      · rw [heq] at hn
        rcases he with he | he <;> simp [he] at hn
      · rw [heq] at hn ⊢
        have h := ih (postState env st.explored (mkStep st path rest) qa oc vs)
          (by simp only [postState_explored, postState_maxScenarios,
                mkStep_explored, mkStep_maxScenarios]; omega) hn
        simpa only [postState_maxScenarios, mkStep_maxScenarios] using h

theorem mkStep_runInv (st : DState) (p : String) (path : Scenario)
    (rest : List (String × Scenario)) (hfr : st.frontier = (p, path) :: rest)
    (h : RunInv st) : RunInv (mkStep st path rest) := by
  obtain ⟨h1, h2, h3, h4⟩ := h
  refine ⟨?_, ?_, ?_, ?_⟩
  · show st.discovered = variantLog (mkStep st path rest)
    unfold variantLog at h1 ⊢
    simp only [mkStep_executed, mkStep_frontier]
    rw [h1, hfr]
    simp [List.append_assoc]
  · simpa using h2
  · simp only [mkStep_explored, mkStep_executed, List.length_append, List.length_cons,
      List.length_nil]
    omega
  · simp only [mkStep_startCalls, mkStep_executed, List.length_append, List.length_cons,
      List.length_nil]
    omega

theorem postState_runInv (env : Env) (k : Nat) (st1 : DState) (qa : List QADict)
    (oc : String) (vs : List Scenario) (hne : st1.executed ≠ [])
    (h : RunInv st1) : RunInv (postState env k st1 qa oc vs) := by
  obtain ⟨h1, h2, h3, h4⟩ := h
  obtain ⟨added, e1, e2, e3⟩ := enqueueVariants_spec (env.renderPrompt k)
    st1.maxScenarios st1.explored vs st1.discovered st1.frontier
  refine ⟨?_, ?_, ?_, ?_⟩
  · rw [show (postState env k st1 qa oc vs).discovered =
        (enqueueVariants (env.renderPrompt k) st1.maxScenarios st1.explored
          st1.discovered st1.frontier vs).1 from rfl, e1, h1]
    unfold variantLog
    rw [show (postState env k st1 qa oc vs).executed = st1.executed from rfl,
      show (postState env k st1 qa oc vs).frontier =
        (enqueueVariants (env.renderPrompt k) st1.maxScenarios st1.explored
          st1.discovered st1.frontier vs).2 from rfl, e2]
    rw [List.map_append, List.map_map]
    have hid : List.map (Prod.snd ∘ fun v => (env.renderPrompt k v, v)) added = added := by
      simp [Function.comp_def]
    rw [hid]
    have hlen : 1 ≤ st1.executed.length := by
      cases hx : st1.executed with
      | nil => exact absurd hx hne
      | cons a l => simp
    rw [List.drop_append_of_le_length hlen, List.drop_append_of_le_length hlen]
    simp [List.append_assoc]
  · rw [show (postState env k st1 qa oc vs).discovered =
        (enqueueVariants (env.renderPrompt k) st1.maxScenarios st1.explored
          st1.discovered st1.frontier vs).1 from rfl, e1]
    exact e3 h2
  · exact h3
  · exact h4

theorem loopFuel_runInv (env : Env) :
    ∀ (fuel : Nat) (st : DState), RunInv st → RunInv (loopFuel env fuel st).2 := by
  intro fuel
  induction fuel with
  | zero => intro st h; exact h
  | succ fuel ih =>
      intro st hInv
      rcases loopFuel_succ_cases env fuel st with ⟨heq, _⟩ |
        ⟨p, path, rest, hfr, hexp, e, he, heq⟩ |
        ⟨p, path, rest, hfr, hexp, hsc, hdt, qa, oc, vs, han, hg, heq⟩
      · rw [heq]; exact hInv
      · rw [heq]
        exact mkStep_runInv st p path rest hfr hInv
      · rw [heq]
        apply ih
        apply postState_runInv
        · simp
        · exact mkStep_runInv st p path rest hfr hInv

/-- A fatal stage failure at iteration `k`, in source order: `start_call`
raises; the download/transcribe `try` block catches and returns; `analyze`
raises; `generate_scenarios` raises something other than `JSONDecodeError`. -/
def fatalAt (env : Env) (k : Nat) : Prop :=
  env.startCall k = false ∨
  (env.startCall k = true ∧ (env.download k && env.transcribe k) = false) ∨
  (env.startCall k = true ∧ (env.download k && env.transcribe k) = true ∧
    env.analyze k = none) ∨
  (env.startCall k = true ∧ (env.download k && env.transcribe k) = true ∧
    (∃ qa, env.analyze k = some qa) ∧ env.gen k = .fail)

theorem loopFuel_fatal (env : Env) (kf : Nat) (hf : fatalAt env kf) :
    ∀ (fuel : Nat) (st : DState), st.startCalls = st.explored → st.explored ≤ kf →
      (loopFuel env fuel st).2.startCalls ≤ kf + 1 ∧
      ((loopFuel env fuel st).2.startCalls = kf + 1 →
        (loopFuel env fuel st).1 = RunExit.abortedRaise ∨
        (loopFuel env fuel st).1 = RunExit.abortedReturn) := by
  intro fuel
  induction fuel with
  | zero =>
      intro st hsc0 hle
      exact ⟨by show st.startCalls ≤ kf + 1; omega,
        fun h => absurd (show st.startCalls = kf + 1 from h) (by omega)⟩
  | succ fuel ih =>
      intro st hsc0 hle
      rcases loopFuel_succ_cases env fuel st with ⟨heq, _⟩ |
        ⟨p, path, rest, hfr, hexp, e, he, heq⟩ |
        ⟨p, path, rest, hfr, hexp, hsc, hdt, qa, oc, vs, han, hg, heq⟩
      · rw [heq]
        exact ⟨by show st.startCalls ≤ kf + 1; omega,
          fun h => absurd (show st.startCalls = kf + 1 from h) (by omega)⟩
      · rw [heq]
        refine ⟨by show st.startCalls + 1 ≤ kf + 1; omega, fun _ => ?_⟩
        rcases he with he | he
        · exact Or.inl he
        · exact Or.inr he
      · by_cases hk : st.explored = kf
        · exfalso
          subst hk
          rcases hf with ha | ⟨_, hb⟩ | ⟨_, _, hc⟩ | ⟨_, _, _, hd2⟩
          · simp [hsc] at ha
          · simp [hdt] at hb
          · simp [han] at hc
          · rcases hg with hg | ⟨hg, _⟩
            · simp [hg] at hd2
            · simp [hg] at hd2
        · rw [heq]
          exact ih (postState env st.explored (mkStep st path rest) qa oc vs)
            (by simp only [postState_startCalls, postState_explored, mkStep_startCalls,
                  mkStep_explored]; omega)
            (by simp only [postState_explored, mkStep_explored]; omega)

theorem drop_one_sublist_append (l m : List Scenario) :
    (l.drop 1).Sublist ((l ++ m).drop 1) := by
  cases l with
  | nil => simp
  | cons a t => simp [List.sublist_append_left]

/-- A configuration value for concrete runs. -/
def cfg0 : Config :=
  { assemblyApiKey := "a", openaiApiKey := "o",
    hammingApiToken := "h", hammingBaseUrl := "u" }

/-- C2 (amended): a failure in place-call, in recording retrieval or
transcription, in analysis, or any non-`JSONDecodeError` failure in variant
synthesis aborts the discovery run: with such a fatal failure at execution
index `k`, the run performs at most `k + 1` pipeline executions, and if the
failing execution was reached the run exits abnormally (the caught
retrieval/transcription failure returns early, the others propagate).  A
`JSONDecodeError` in variant synthesis is the exception: it is swallowed
per-scenario (treated as an empty variant list) and the run continues —
see the counterexample. -/
theorem c2_fatal_stage_aborts (env : Env) (c : Config) (k : Nat) (hf : fatalAt env k) :
    (discoverScenarios env c).2.startCalls ≤ k + 1 ∧
    ((discoverScenarios env c).2.startCalls = k + 1 →
      (discoverScenarios env c).1 = RunExit.abortedRaise ∨
      (discoverScenarios env c).1 = RunExit.abortedReturn) := by
  unfold discoverScenarios runLoop
  exact loopFuel_fatal env k hf _ (initState env c) rfl (Nat.zero_le k)

/-- Oracle with a failing `start_call` on every iteration. -/
def env2w : Env :=
  { initialPrompt := "p", renderPrompt := fun _ _ => "p",
    startCall := fun _ => false,
    download := fun _ => true, transcribe := fun _ => true,
    analyze := fun _ => some ([], "o"),
    gen := fun _ => .ok [] }

/-- C2 witness: a `start_call` failure on the very first execution caps the
run at one pipeline execution and makes it exit abnormally. -/
theorem c2_fatal_stage_aborts_witness :
    (discoverScenarios env2w cfg0).2.startCalls ≤ 1 ∧
    ((discoverScenarios env2w cfg0).2.startCalls = 1 →
      (discoverScenarios env2w cfg0).1 = RunExit.abortedRaise ∨
      (discoverScenarios env2w cfg0).1 = RunExit.abortedReturn) :=
  c2_fatal_stage_aborts env2w cfg0 0 (Or.inl rfl)

/-- A first variant scenario. -/
def scenB : Scenario := [[("Q?", "B")]]

/-- A second variant scenario. -/
def scenC : Scenario := [[("Q?", "C")]]

/-- Oracle whose variant-synthesis stage fails with a JSON decode error on
the second execution, after the first execution enqueued two variants. -/
def env2c : Env :=
  { initialPrompt := "p", renderPrompt := fun _ _ => "p",
    startCall := fun _ => true, download := fun _ => true,
    transcribe := fun _ => true,
    analyze := fun _ => some ([[("Q?", "A")]], "done"),
    gen := fun k => if k = 0 then .ok [scenB, scenC]
      else if k = 1 then .jsonErr else .ok [] }

/-- C2 counterexample: the variant-synthesis stage fails (JSON decode
error) during the second execution, yet a third scenario is still dequeued
and executed and the run completes normally — the failure is swallowed
per-scenario, not propagated as an abort. -/
theorem c2_counterexample :
    env2c.gen 1 = GenResult.jsonErr ∧
    (discoverScenarios env2c cfg0).1 = RunExit.normal ∧
    (discoverScenarios env2c cfg0).2.startCalls = 3 ∧
    (discoverScenarios env2c cfg0).2.executed = [[], scenB, scenC] :=
  ⟨rfl, rfl, rfl, rfl⟩

/-- C3 (confirmed): for every cap `N` (`max_scenarios`) and every oracle
behavior — including an analyzer that proposes unlimited novel variants —
the controller performs at most `N` pipeline executions (`start_call`
invocations), the loop never runs out of modelling fuel, and a normal end
of the loop means the frontier is empty or the execution counter reached
the cap. -/
theorem c3_bounded_effort (env : Env) (st : DState)
    (h0 : st.startCalls = 0) (h1 : st.explored = 0) :
    (runLoop env st).2.startCalls ≤ st.maxScenarios ∧
    (runLoop env st).1 ≠ RunExit.fuelOut ∧
    ((runLoop env st).1 = RunExit.normal →
      ((runLoop env st).2.frontier = [] ∨
        (runLoop env st).2.explored = st.maxScenarios)) := by
  unfold runLoop
  refine ⟨?_, ?_, ?_⟩
  · have h := loopFuel_startCalls_bound env (st.maxScenarios - st.explored + 1) st
    omega
  · exact loopFuel_no_fuelOut env _ st (by omega)
  · exact loopFuel_normal_exit env _ st (by omega)

/-- Oracle where every stage succeeds and no variants are proposed. -/
def env3w : Env :=
  { initialPrompt := "p", renderPrompt := fun _ _ => "p",
    startCall := fun _ => true, download := fun _ => true,
    transcribe := fun _ => true,
    analyze := fun _ => some ([[("Q?", "A")]], "done"),
    gen := fun _ => .ok [] }

/-- C3 witness: the bound instantiated at the constructor state. -/
theorem c3_bounded_effort_witness :
    (runLoop env3w (initState env3w cfg0)).2.startCalls ≤
      (initState env3w cfg0).maxScenarios ∧
    (runLoop env3w (initState env3w cfg0)).1 ≠ RunExit.fuelOut ∧
    ((runLoop env3w (initState env3w cfg0)).1 = RunExit.normal →
      ((runLoop env3w (initState env3w cfg0)).2.frontier = [] ∨
        (runLoop env3w (initState env3w cfg0)).2.explored =
          (initState env3w cfg0).maxScenarios)) :=
  c3_bounded_effort env3w (initState env3w cfg0) rfl rfl

/-- C4 (amended): deduplication is applied at enqueue time against
`discovered_scenarios`, so among the variant scenarios dequeued and
executed by the controller (every dequeued scenario after the initial
seed) no two are structurally equal, for every oracle behavior and
insertion order.  The initial empty seed itself is never recorded in
`discovered_scenarios`, so an analyzer-proposed variant with an empty
pair sequence can be executed in addition to the seed — see the
counterexample. -/
theorem c4_dedup_executed (env : Env) (c : Config) :
    List.Pairwise (fun a b => scenarioMatch a b = false)
      ((discoverScenarios env c).2.executed.drop 1) := by
  unfold discoverScenarios runLoop
  have hInv := loopFuel_runInv env
    ((initState env c).maxScenarios - (initState env c).explored + 1)
    (initState env c) ⟨rfl, List.Pairwise.nil, rfl, rfl⟩
  obtain ⟨h1, h2, _, _⟩ := hInv
  rw [h1] at h2
  unfold variantLog at h2
  exact h2.sublist (drop_one_sublist_append _ _)

/-- Oracle whose analyzer proposes the empty variant on every execution. -/
def env4c : Env :=
  { initialPrompt := "p", renderPrompt := fun _ _ => "p",
    startCall := fun _ => true, download := fun _ => true,
    transcribe := fun _ => true,
    analyze := fun _ => some ([[("Q?", "A")]], "done"),
    gen := fun _ => .ok [[]] }

/-- C4 counterexample: the empty variant is structurally equal to the
initial empty seed, yet both are dequeued and executed, because the seed
is never added to `discovered_scenarios`. -/
theorem c4_counterexample :
    (discoverScenarios env4c cfg0).2.executed = [[], []] ∧
    scenarioMatch [] [] = true :=
  ⟨rfl, rfl⟩

/-- C9 (confirmed): when a run ends normally (frontier drained or cap
reached), every discovered scenario that was never executed is reported in
the end-of-run remaining-scenarios list (the paths still on the frontier),
and the reported explored count equals the number of executed scenarios. -/
theorem c9_remaining_report (env : Env) (c : Config)
    (_hn : (discoverScenarios env c).1 = RunExit.normal) :
    (∀ v ∈ (discoverScenarios env c).2.discovered,
        v ∉ (discoverScenarios env c).2.executed →
        v ∈ (discoverScenarios env c).2.frontier.map Prod.snd) ∧
    (discoverScenarios env c).2.explored =
      (discoverScenarios env c).2.executed.length := by
  unfold discoverScenarios runLoop
  have hInv := loopFuel_runInv env
    ((initState env c).maxScenarios - (initState env c).explored + 1)
    (initState env c) ⟨rfl, List.Pairwise.nil, rfl, rfl⟩
  obtain ⟨h1, _, h3, _⟩ := hInv
  refine ⟨?_, h3⟩
  intro v hv hne
  rw [h1] at hv
  unfold variantLog at hv
  have hall : v ∈ (loopFuel env
      ((initState env c).maxScenarios - (initState env c).explored + 1)
      (initState env c)).2.executed ++
      ((loopFuel env
        ((initState env c).maxScenarios - (initState env c).explored + 1)
        (initState env c)).2.frontier.map Prod.snd) := by
    have hdrop := List.drop_subset 1 ((loopFuel env
      ((initState env c).maxScenarios - (initState env c).explored + 1)
      (initState env c)).2.executed ++
      ((loopFuel env
        ((initState env c).maxScenarios - (initState env c).explored + 1)
        (initState env c)).2.frontier.map Prod.snd))
    exact hdrop hv
  rcases List.mem_append.mp hall with h | h
  · exact absurd h hne
  · exact h

/-- Oracle for the C9 witness: one successful execution, no variants. -/
def env9w : Env :=
  { initialPrompt := "p", renderPrompt := fun _ _ => "p",
    startCall := fun _ => true, download := fun _ => true,
    transcribe := fun _ => true,
    analyze := fun _ => some ([[("Q?", "A")]], "done"),
    gen := fun _ => .ok [] }

/-- C9 witness: the report property instantiated at a normally
terminating concrete run. -/
theorem c9_remaining_report_witness :
    (∀ v ∈ (discoverScenarios env9w cfg0).2.discovered,
        v ∉ (discoverScenarios env9w cfg0).2.executed →
        v ∈ (discoverScenarios env9w cfg0).2.frontier.map Prod.snd) ∧
    (discoverScenarios env9w cfg0).2.explored =
      (discoverScenarios env9w cfg0).2.executed.length :=
  c9_remaining_report env9w cfg0 rfl

/-- C10 (confirmed): for every configuration dict accepted by the
constructor, `max_scenarios` is initialized to the constant 10, is still
10 after any run (no operation modifies it), and every run performs at
most 10 pipeline executions; the cap is not configurable. -/
theorem c10_cap_constant (env : Env) (c : Config) :
    (initState env c).maxScenarios = 10 ∧
    (discoverScenarios env c).2.maxScenarios = 10 ∧
    (discoverScenarios env c).2.startCalls ≤ 10 := by
  refine ⟨?_, ?_, ?_⟩
  · rfl
  · unfold discoverScenarios runLoop
    rw [loopFuel_max]
    rfl
  · unfold discoverScenarios runLoop
    have h := loopFuel_startCalls_bound env
      ((initState env c).maxScenarios - (initState env c).explored + 1)
      (initState env c)
    simpa [initState] using h
